import Mathlib

/-!
Shallow embedding of `git_aggregator/config.py`, function `get_repos`.

The configuration reaching `get_repos` is a parsed YAML mapping
`directory -> repo_data`.  We model it as an ordered association list over a
typed universe covering the schema: remote maps, merge entries (text or
mapping shape), fetch scope, target, post-merge commands.

External collaborators (`os.path`, the `Repo` git-query class) are modelled
by a `World` record of oracles.  Calls into the collaborator are recorded in
an event trace, and the post-state of the input configuration is returned
alongside the result, because the source coerces merge-entry mapping values
in place (`merge["remote"] = str(merge["remote"])`).
-/

namespace GitAggregator

/-- A YAML scalar as it reaches `get_repos`: either text, or a number that
Python's `str` renders (the source casts merge and target values with `str`;
the comment at config.py line 135 notes e.g. `8.0` parsing as a number). -/
inductive Scalar
  | s (v : String)
  | i (v : Int)
deriving DecidableEq

/-- Python `str` applied to a scalar. -/
def pyStr : Scalar → String
  | .s v => v
  | .i v => toString v

/-- One element of the `merges` list: either a single string
`"remote_name ref"`, or a mapping with (possibly missing) `remote` and
`ref` keys (config.py lines 81-101 dispatch on the two shapes). -/
inductive MergeEntry
  | text (v : String)
  | map (remote : Option Scalar) (ref : Option Scalar)
deriving DecidableEq

/-- A normalized merge instruction (config.py lines 89-92 / 96-97). -/
structure Merge where
  remote : String
  ref : String
deriving DecidableEq

/-- A normalized remote (config.py lines 49-52). -/
structure Remote where
  name : String
  url : String
deriving DecidableEq

/-- The resolved target (config.py lines 155-158). -/
structure Target where
  remote : Option String
  branch : String
deriving DecidableEq

/-- The raw `fetch_all` value (config.py line 129): absent, a boolean, a
single string, or a list of strings. -/
inductive FetchAllIn
  | absent
  | b (v : Bool)
  | s (v : String)
  | l (v : List String)
deriving DecidableEq

/-- The normalized `fetch_all` field: a boolean kept as-is, or a frozenset
of remote names (config.py lines 129-133). -/
inductive FetchAll
  | b (v : Bool)
  | set (v : Finset String)
deriving DecidableEq

/-- The raw `shell_command_after` value (config.py lines 160-166). -/
inductive ShellIn
  | absent
  | s (v : String)
  | l (v : List String)
deriving DecidableEq

/-- The per-directory raw configuration mapping (`repo_data`).  `none`
means the key is absent; `remotes = some []` and `merges = some []` also
cover a present-but-falsy value, which the source replaces by `{}` / `[]`
(config.py lines 43 and 73). -/
structure RepoData where
  defaults : List (String × String) := []
  skip_dry_run : Bool := false
  apply_patch : Bool := false
  skip_repo_init : Bool := false
  remotes : Option (List (String × String)) := none
  merges : Option (List MergeEntry) := none
  fetch_all : FetchAllIn := .absent
  target : Option Scalar := none
  shell_command_after : ShellIn := .absent
deriving DecidableEq

/-- The whole parsed configuration: ordered `directory -> repo_data`. -/
abbrev Config := List (String × RepoData)

/-- The fully resolved per-directory record (`repo_dict`). -/
structure RepoSpec where
  cwd : String
  defaults : List (String × String)
  force : Bool
  skip_dry_run : Bool
  apply_patch : Bool
  skip_repo_init : Bool
  remotes : List Remote
  merges : List Merge
  fetch_all : FetchAll
  target : Target
  shell_command_after : List String
deriving DecidableEq

/-- Outcome of `Repo.query_remote_ref(remote, ref)`: a resolved ref
(`rtype` non-None), a clean not-found (`rtype is None`), or the call
raising an exception. -/
inductive QueryResult
  | found (rtype : String) (sha : String)
  | notFound (sha : String)
  | raised
deriving DecidableEq

/-- Oracles for the external collaborators: `os.path.exists`,
`os.path.abspath` (for relative inputs), `Repo._get_remotes` (`none` when
it raises: no working copy or query error), and `Repo.query_remote_ref`. -/
structure World where
  pathExists : String → Bool
  absPath : String → String
  getRemotes : String → Option (List (String × String))
  query : String → String → String → QueryResult

/-- Trace of calls issued to the git-query collaborator. -/
inductive Event
  | getRemotes (cwd : String)
  | setRemote (cwd : String) (name : String) (url : String)
  | refQuery (cwd : String) (remote : String) (ref : String)
deriving DecidableEq

/-- The single error kind, `ConfigException`, carrying its message. -/
abbrev ConfigError := String

/-- `os.path.isabs` on POSIX: the path begins with a slash. -/
def isabs (p : String) : Bool :=
  match p.data with
  | [] => false
  | c :: _ => c = '/'

/-- config.py lines 30-31: a relative directory is made absolute. -/
def normPath (w : World) (d : String) : String :=
  if isabs d then d else w.absPath d

/-- Modelled from the spec: the hex-ref predicate `ishex` lives in
`repo.py`, which is not under `src/`; the spec describes it as recognizing
a ref string that is a full or abbreviated hexadecimal object id. -/
def ishex (r : String) : Bool :=
  r ≠ "" && r.data.all fun c => c.isDigit || ('a' ≤ c && c ≤ 'f') || ('A' ≤ c && c ≤ 'F')

/-- Split a character list at every character satisfying `p`; consecutive
separators yield empty fields, like Python `str.split` with an explicit
separator. -/
def splitCharsWhen (p : Char → Bool) : List Char → List (List Char)
  | [] => [[]]
  | c :: cs =>
    match splitCharsWhen p cs with
    | [] => [[c]]
    | f :: rest => if p c then [] :: f :: rest else (c :: f) :: rest

/-- Python `merge.split(' ')` (config.py line 84): split at each single
space, keeping empty fields. -/
def pySplitOn (s : String) : List String :=
  (splitCharsWhen (· == ' ') s.data).map fun l => ⟨l⟩

/-- Python `str.split()` with no argument: split on whitespace runs,
dropping empty pieces. -/
def pySplit (s : String) : List String :=
  ((splitCharsWhen Char.isWhitespace s.data).map fun l => (⟨l⟩ : String)).filter (· ≠ "")

/-- `str(repo_data.get('target', ""))` (config.py line 138). -/
def targetStr : Option Scalar → String
  | none => ""
  | some v => pyStr v

/-- config.py lines 81-101: normalize one merge entry.  Returns the parsed
result together with the entry's post-state (the mapping shape is coerced
in place; on a missing `ref` key the `remote` value has already been
coerced when the lookup of `ref` raises `KeyError`). -/
def coerceMergeEntry (directory : String) : MergeEntry → Except ConfigError Merge × MergeEntry
  | .text v =>
    match pySplitOn v with
    | [a, b] => (.ok ⟨a, b⟩, .text v)
    | _ => (.error (directory ++ ": Merge must be formatted as \"remote_name ref\"."), .text v)
  | .map remote ref =>
    match remote with
    | none => (.error (directory ++ ": Merge lacks mandatory `remote` or `ref` keys."),
        .map remote ref)
    | some rv =>
      match ref with
      | none => (.error (directory ++ ": Merge lacks mandatory `remote` or `ref` keys."),
          .map (some (.s (pyStr rv))) none)
      | some fv => (.ok ⟨pyStr rv, pyStr fv⟩,
          .map (some (.s (pyStr rv))) (some (.s (pyStr fv))))

/-- The in-place string coercion a fully processed merge entry undergoes. -/
def coercedEntry : MergeEntry → MergeEntry
  | .text v => .text v
  | .map remote ref =>
    .map (remote.map fun v => .s (pyStr v)) (ref.map fun v => .s (pyStr v))

/-- config.py lines 82-120: one iteration of the merge loop.  Returns
`.ok (some mg)` when the entry is kept, `.ok none` when it is dropped by
the ref pre-flight (`continue` at line 117), or the first error, together
with the entry's post-state and the ref queries issued.  The
remote-availability check (line 103) precedes the ref pre-flight; the
pre-flight runs whenever `skip_merge_check` is false (`tmp_repo` is then a
`Repo` instance, hence truthy, line 107).  A clean not-found on a non-hex
ref drops the entry; a raising query keeps it (lines 111-119). -/
def stepMerge (w : World) (skip_merge_check : Bool) (directory : String)
    (remote_names : List String) (m : MergeEntry) :
    Except ConfigError (Option Merge) × MergeEntry × List Event :=
  let c := coerceMergeEntry directory m
  match c.1 with
  | .error e => (.error e, c.2, [])
  | .ok mg =>
    if mg.remote ∈ remote_names then
      if !skip_merge_check then
        match w.query directory mg.remote mg.ref with
        | .notFound _ =>
          if ishex mg.ref then
            (.ok (some mg), c.2, [.refQuery directory mg.remote mg.ref])
          else
            (.ok none, c.2, [.refQuery directory mg.remote mg.ref])
        | _ =>
          (.ok (some mg), c.2, [.refQuery directory mg.remote mg.ref])
      else
        (.ok (some mg), c.2, [])
    else
      (.error (directory ++ (": Merge remote " ++ (mg.remote ++ " not defined in remotes."))),
        c.2, [])

/-- config.py lines 81-120: the merge loop, `stepMerge` folded over the
entry list, stopping at the first error.  Returns the kept merges (or the
first error), the post-state of the entry list, and the query trace. -/
def processMerges (w : World) (skip_merge_check : Bool) (directory : String)
    (remote_names : List String) :
    List MergeEntry → Except ConfigError (List Merge) × List MergeEntry × List Event
  | [] => (.ok [], [], [])
  | m :: ms =>
    let s := stepMerge w skip_merge_check directory remote_names m
    match s.1 with
    | .error e => (.error e, s.2.1 :: ms, s.2.2)
    | .ok o =>
      let rest := processMerges w skip_merge_check directory remote_names ms
      (rest.1.map fun l =>
          match o with
          | some mg => mg :: l
          | none => l,
        s.2.1 :: rest.2.1, s.2.2 ++ rest.2.2)

/-- config.py lines 44-54: the loop over a present `remotes` mapping. -/
def buildRemoteList (directory : String) :
    List (String × String) → Except ConfigError (List Remote)
  | [] => .ok []
  | (name, url) :: rest =>
    if url = "" then
      .error (directory ++ (": No url defined for remote " ++ (name ++ ".")))
    else
      match buildRemoteList directory rest with
      | .error e => .error e
      | .ok rs => .ok (⟨name, url⟩ :: rs)

/-- config.py lines 41-70: the remotes block.  With a `remotes` key, build
the list and fail if it ends up empty; otherwise discover remotes from the
working copy, any failure becoming `remotes is not defined`. -/
def buildRemotes (w : World) (directory : String) (repo_data : RepoData) :
    Except ConfigError (List Remote) × List Event :=
  match repo_data.remotes with
  | some remotes_data =>
    match buildRemoteList directory remotes_data with
    | .error e => (.error e, [])
    | .ok remotes =>
      if remotes.isEmpty then
        (.error (directory ++ ": You should at least define one remote."), [])
      else
        (.ok remotes, [])
  | none =>
    match w.getRemotes directory with
    | none => (.error (directory ++ ": remotes is not defined."), [.getRemotes directory])
    | some remotes => (.ok (remotes.map fun p => ⟨p.1, p.2⟩), [.getRemotes directory])

/-- config.py lines 129-133: `fetch_all` normalization. -/
def normFetchAll : FetchAllIn → FetchAll
  | .absent => .b false
  | .b v => .b v
  | .s v => .set {v}
  | .l v => .set v.toFinset

/-- config.py lines 159-166: `shell_command_after` normalization (a falsy
value leaves the command list empty). -/
def normShell : ShellIn → List String
  | .absent => []
  | .s v => if v = "" then [] else [v]
  | .l v => if v = [] then [] else v

/-- config.py lines 138-158: parse the target as whitespace-separated
tokens and check a given remote against the remote names. -/
def parseTarget (directory : String) (remote_names : List String)
    (tgt : Option Scalar) : Except ConfigError Target :=
  match pySplit (targetStr tgt) with
  | [] => .ok ⟨none, "_git_aggregated"⟩
  | [branch] => .ok ⟨none, branch⟩
  | [remote_name, branch] =>
    if remote_name ∈ remote_names then
      .ok ⟨some remote_name, branch⟩
    else
      .error (directory ++ (": Target remote " ++ (remote_name ++ " not defined in remotes.")))
  | _ =>
    .error (directory ++ ": Target must be formatted as \"[remote_name] branch_name\"")

/-- config.py lines 30-168: resolve one directory entry.  Returns the
resolved `RepoSpec` or the first error, the post-state of `repo_data`,
and the collaborator call trace.  Remotes are applied to the working copy
only when it exists on disk and the merge check is not skipped (lines
75-80); ref queries are issued whenever the merge check is not skipped. -/
def resolveRepo (w : World) (force skip_merge_check : Bool) (dir0 : String)
    (repo_data : RepoData) :
    Except ConfigError RepoSpec × RepoData × List Event :=
  let directory := normPath w dir0
  let br := buildRemotes w directory repo_data
  match br.1 with
  | .error e => (.error e, repo_data, br.2)
  | .ok remotes =>
    let remote_names := remotes.map Remote.name
    match repo_data.merges with
    | none => (.error (directory ++ ": merges is not defined."), repo_data, br.2)
    | some merge_data =>
      let setEvs :=
        if (!skip_merge_check) && w.pathExists directory then
          remotes.map fun r => Event.setRemote directory r.name r.url
        else []
      let pm := processMerges w skip_merge_check directory remote_names merge_data
      let repo_data' := { repo_data with merges := some pm.2.1 }
      let evs := br.2 ++ setEvs ++ pm.2.2
      match pm.1 with
      | .error e => (.error e, repo_data', evs)
      | .ok merges =>
        if merges.isEmpty then
          (.error (directory ++ ": You should at least define one merge."), repo_data', evs)
        else
          match parseTarget directory remote_names repo_data.target with
          | .error e => (.error e, repo_data', evs)
          | .ok target =>
            (.ok {
              cwd := directory
              defaults := repo_data.defaults
              force := force
              skip_dry_run := repo_data.skip_dry_run
              apply_patch := repo_data.apply_patch
              skip_repo_init := repo_data.skip_repo_init
              remotes := remotes
              merges := merges
              fetch_all := normFetchAll repo_data.fetch_all
              target := target
              shell_command_after := normShell repo_data.shell_command_after
            }, repo_data', evs)

/-- config.py lines 28-169: iterate the configured directories in input
order, failing fast on the first error.  Returns the spec list or the
first error, the post-state of the configuration, and the call trace. -/
def get_repos (w : World) (config : Config) (force : Bool := false)
    (skip_merge_check : Bool := false) :
    Except ConfigError (List RepoSpec) × Config × List Event :=
  match config with
  | [] => (.ok [], [], [])
  | (directory, repo_data) :: rest =>
    let r := resolveRepo w force skip_merge_check directory repo_data
    match r.1 with
    | .error e => (.error e, (directory, r.2.1) :: rest, r.2.2)
    | .ok spec =>
      let tail := get_repos w rest force skip_merge_check
      (tail.1.map (spec :: ·), (directory, r.2.1) :: tail.2.1, r.2.2 ++ tail.2.2)

instance {ε α : Type} [DecidableEq ε] [DecidableEq α] : DecidableEq (Except ε α)
  | .error a, .error b =>
    if h : a = b then .isTrue (by rw [h]) else .isFalse (by intro hc; cases hc; exact h rfl)
  | .error _, .ok _ => .isFalse (by intro hc; cases hc)
  | .ok _, .error _ => .isFalse (by intro hc; cases hc)
  | .ok a, .ok b =>
    if h : a = b then .isTrue (by rw [h]) else .isFalse (by intro hc; cases hc; exact h rfl)

/-- A fixed collaborator world for concrete runs: no working copy on disk,
remote discovery fails, every ref query raises. -/
def wTriv : World where
  pathExists := fun _ => false
  absPath := fun p => "/cwd/" ++ p
  getRemotes := fun _ => none
  query := fun _ _ _ => .raised

/-- A collaborator world whose working copies exist and whose ref queries
all return a clean not-found. -/
def wNotFound : World where
  pathExists := fun _ => true
  absPath := fun p => "/cwd/" ++ p
  getRemotes := fun _ => none
  query := fun _ _ _ => .notFound ""

/-- The raw `repo_data` of the spec's minimal round-trip configuration. -/
def rdMin : RepoData :=
  { remotes := some [("origin", "u")], merges := some [.text "origin 14.0"] }

/-- The minimal configuration of the spec's round-trip property. -/
def cfgMin : Config := [("/tmp/D", rdMin)]

/-- The minimal configuration with the merge entry in mapping shape. -/
def cfgMapShape : Config :=
  [("/tmp/D", { remotes := some [("origin", "u")],
                merges := some [.map (some (.s "origin")) (some (.s "14.0"))] })]

/-- A configuration whose merge-entry mapping has a numeric `ref` value. -/
def cfgIntRef : Config :=
  [("/tmp/D", { remotes := some [("origin", "u")],
                merges := some [.map (some (.s "origin")) (some (.i 14))] })]

/-- A configuration with one text merge entry whose ref is hex-looking. -/
def cfgHexRef : Config :=
  [("/tmp/D", { remotes := some [("origin", "u")],
                merges := some [.text "origin b"] })]

/-- The minimal configuration with `fetch_all: true`. -/
def cfgFetchTrue : Config :=
  [("/tmp/D", { remotes := some [("origin", "u")],
                merges := some [.text "origin 14.0"],
                fetch_all := .b true })]

/-- Discriminator: is a normalized `fetch_all` value a set of names? -/
def FetchAll.isSet : FetchAll → Bool
  | .b _ => false
  | .set _ => true

/-- The `RepoSpec` the minimal configuration resolves to. -/
def specMin : RepoSpec where
  cwd := "/tmp/D"
  defaults := []
  force := false
  skip_dry_run := false
  apply_patch := false
  skip_repo_init := false
  remotes := [⟨"origin", "u"⟩]
  merges := [⟨"origin", "14.0"⟩]
  fetch_all := .b false
  target := ⟨none, "_git_aggregated"⟩
  shell_command_after := []


theorem coerce_ok_post (d : String) (m : MergeEntry) (mg : Merge)
    (h : (coerceMergeEntry d m).1 = .ok mg) :
    (coerceMergeEntry d m).2 = coercedEntry m := by
  cases m with
  | text v =>
    simp only [coerceMergeEntry, coercedEntry]
    split <;> rfl
  | map r f =>
    cases r with
    | none => simp [coerceMergeEntry] at h
    | some rv =>
      cases f with
      | none => simp [coerceMergeEntry] at h
      | some fv => simp [coerceMergeEntry, coercedEntry, Option.map]

theorem coerce_error_msg (d : String) (m : MergeEntry) (e : ConfigError)
    (h : (coerceMergeEntry d m).1 = .error e) : ∃ r, e = d ++ r := by
  cases m with
  | text v =>
    simp only [coerceMergeEntry] at h
    split at h
    · simp at h
    · exact ⟨_, (by cases h; rfl)⟩
  | map r f =>
    cases r with
    | none => exact ⟨_, (by cases h; rfl)⟩
    | some rv =>
      cases f with
      | none => exact ⟨_, (by cases h; rfl)⟩
      | some fv => simp [coerceMergeEntry] at h

theorem stepMerge_ok_mem (w : World) (sk : Bool) (d : String) (names : List String)
    (m : MergeEntry) (mg : Merge)
    (h : (stepMerge w sk d names m).1 = .ok (some mg)) : mg.remote ∈ names := by
  unfold stepMerge at h
  cases hc : (coerceMergeEntry d m).1 with
  | error e => simp only [hc] at h; simp at h
  | ok mg' =>
    simp only [hc] at h
    by_cases hmem : mg'.remote ∈ names
    · simp only [hmem, if_true] at h
      cases sk with
      | true => simp only [Bool.not_true, Bool.false_eq_true, if_false] at h; cases h; exact hmem
      | false =>
        simp only [Bool.not_false, if_true] at h
        cases hq : w.query d mg'.remote mg'.ref with
        | found rt sha => simp only [hq] at h; cases h; exact hmem
        | notFound sha =>
          simp only [hq] at h
          by_cases hx : ishex mg'.ref = true
          · simp only [hx, if_true] at h; cases h; exact hmem
          · simp only [hx, if_false] at h; cases h
        | raised => simp only [hq] at h; cases h; exact hmem
    · simp only [hmem, if_false] at h; simp at h

theorem stepMerge_ok_post (w : World) (sk : Bool) (d : String) (names : List String)
    (m : MergeEntry) (o : Option Merge)
    (h : (stepMerge w sk d names m).1 = .ok o) :
    (stepMerge w sk d names m).2.1 = coercedEntry m := by
  unfold stepMerge at h ⊢
  cases hc : (coerceMergeEntry d m).1 with
  | error e => simp only [hc] at h; simp at h
  | ok mg' =>
    simp only [hc] at h ⊢
    have hpost := coerce_ok_post d m mg' hc
    by_cases hmem : mg'.remote ∈ names
    · simp only [hmem, if_true]
      cases sk with
      | true => simpa using hpost
      | false =>
        simp only [Bool.not_false, if_true]
        cases hq : w.query d mg'.remote mg'.ref with
        | found rt sha => simpa using hpost
        | notFound sha =>
          by_cases hx : ishex mg'.ref = true
          · simp only [hx, if_true]; simpa using hpost
          · simp only [hx, if_false]; simpa using hpost
        | raised => simpa using hpost
    · simp only [hmem, if_false] at h; simp at h

theorem stepMerge_error_msg (w : World) (sk : Bool) (d : String) (names : List String)
    (m : MergeEntry) (e : ConfigError)
    (h : (stepMerge w sk d names m).1 = .error e) : ∃ r, e = d ++ r := by
  unfold stepMerge at h
  cases hc : (coerceMergeEntry d m).1 with
  | error ec =>
    simp only [hc] at h
    cases h
    exact coerce_error_msg d m _ hc
  | ok mg' =>
    simp only [hc] at h
    by_cases hmem : mg'.remote ∈ names
    · simp only [hmem, if_true] at h
      cases sk with
      | true => simp at h
      | false =>
        simp only [Bool.not_false, if_true] at h
        cases hq : w.query d mg'.remote mg'.ref with
        | found rt sha => simp only [hq] at h; cases h
        | notFound sha =>
          simp only [hq] at h
          by_cases hx : ishex mg'.ref = true
          · simp only [hx, if_true] at h; cases h
          · simp only [hx, if_false] at h; cases h
        | raised => simp only [hq] at h; cases h
    · simp only [hmem, if_false] at h
      cases h
      exact ⟨_, rfl⟩


theorem processMerges_ok (w : World) (sk : Bool) (d : String) (names : List String)
    (ms : List MergeEntry) :
    ∀ l, (processMerges w sk d names ms).1 = .ok l →
      (∀ mg ∈ l, mg.remote ∈ names) ∧
      (processMerges w sk d names ms).2.1 = ms.map coercedEntry := by
  induction ms with
  | nil =>
    intro l h
    simp only [processMerges] at h ⊢
    cases h
    exact ⟨by simp, rfl⟩
  | cons m ms ih =>
    intro l h
    simp only [processMerges] at h ⊢
    cases hs : (stepMerge w sk d names m).1 with
    | error e => simp only [hs] at h; simp at h
    | ok o =>
      simp only [hs] at h ⊢
      have hpost := stepMerge_ok_post w sk d names m o hs
      cases o with
      | some mg =>
        cases hr : (processMerges w sk d names ms).1 with
        | error e => simp only [hr, Except.map] at h; simp at h
        | ok lr =>
          simp only [hr, Except.map] at h
          cases h
          obtain ⟨h1, h2⟩ := ih _ hr
          refine ⟨?_, by simp [hpost, h2]⟩
          intro x hx
          rcases List.mem_cons.mp hx with hx | hx
          · subst hx; exact stepMerge_ok_mem w sk d names m x hs
          · exact h1 x hx
      | none =>
        cases hr : (processMerges w sk d names ms).1 with
        | error e => simp only [hr, Except.map] at h; simp at h
        | ok lr =>
          simp only [hr, Except.map] at h
          cases h
          obtain ⟨h1, h2⟩ := ih _ hr
          exact ⟨h1, by simp [hpost, h2]⟩

theorem processMerges_error_msg (w : World) (sk : Bool) (d : String) (names : List String)
    (ms : List MergeEntry) :
    ∀ e, (processMerges w sk d names ms).1 = .error e → ∃ r, e = d ++ r := by
  induction ms with
  | nil => intro e h; simp [processMerges] at h
  | cons m ms ih =>
    intro e h
    simp only [processMerges] at h
    cases hs : (stepMerge w sk d names m).1 with
    | error ec =>
      simp only [hs] at h
      cases h
      exact stepMerge_error_msg w sk d names m _ hs
    | ok o =>
      simp only [hs] at h
      cases hr : (processMerges w sk d names ms).1 with
      | error ec =>
        simp only [hr, Except.map] at h
        cases h
        exact ih _ hr
      | ok lr => simp only [hr, Except.map] at h; simp at h

theorem buildRemoteList_error_msg (d : String) (data : List (String × String)) :
    ∀ e, buildRemoteList d data = .error e → ∃ r, e = d ++ r := by
  induction data with
  | nil => intro e h; simp [buildRemoteList] at h
  | cons p rest ih =>
    obtain ⟨name, url⟩ := p
    intro e h
    simp only [buildRemoteList] at h
    by_cases hu : url = ""
    · simp only [hu, if_true] at h
      cases h
      exact ⟨_, rfl⟩
    · simp only [hu, if_false] at h
      cases hr : buildRemoteList d rest with
      | error ec => simp only [hr] at h; cases h; exact ih _ hr
      | ok rs => simp only [hr] at h; simp at h

theorem buildRemotes_error_msg (w : World) (d : String) (rd : RepoData) (e : ConfigError)
    (h : (buildRemotes w d rd).1 = .error e) : ∃ r, e = d ++ r := by
  unfold buildRemotes at h
  cases hrm : rd.remotes with
  | some data =>
    simp only [hrm] at h
    cases hb : buildRemoteList d data with
    | error ec => simp only [hb] at h; cases h; exact buildRemoteList_error_msg d data _ hb
    | ok rs =>
      simp only [hb] at h
      by_cases he : rs.isEmpty
      · simp only [he, if_true] at h; cases h; exact ⟨_, rfl⟩
      · simp only [he, if_false] at h; simp at h
  | none =>
    simp only [hrm] at h
    cases hg : w.getRemotes d with
    | none => simp only [hg] at h; cases h; exact ⟨_, rfl⟩
    | some rs => simp only [hg] at h; simp at h

theorem parseTarget_ok_remote (d : String) (names : List String) (t : Option Scalar)
    (tgt : Target) (h : parseTarget d names t = .ok tgt) :
    ∀ r, tgt.remote = some r → r ∈ names := by
  unfold parseTarget at h
  rcases hl : pySplit (targetStr t) with _ | ⟨a, _ | ⟨b, _ | ⟨c, tl⟩⟩⟩ <;>
    simp only [hl] at h
  · cases h; intro r hr; simp at hr
  · cases h; intro r hr; simp at hr
  · by_cases hmem : a ∈ names
    · simp only [hmem, if_true] at h
      cases h
      intro r hr
      cases hr
      exact hmem
    · simp only [hmem, if_false] at h; simp at h
  · simp at h

theorem parseTarget_error_msg (d : String) (names : List String) (t : Option Scalar)
    (e : ConfigError) (h : parseTarget d names t = .error e) : ∃ r, e = d ++ r := by
  unfold parseTarget at h
  rcases hl : pySplit (targetStr t) with _ | ⟨a, _ | ⟨b, _ | ⟨c, tl⟩⟩⟩ <;>
    simp only [hl] at h
  · simp at h
  · simp at h
  · by_cases hmem : a ∈ names
    · simp only [hmem, if_true] at h; simp at h
    · simp only [hmem, if_false] at h; cases h; exact ⟨_, rfl⟩
  · cases h; exact ⟨_, rfl⟩


/-- Forget the `merges` field of a `repo_data`, for frame statements. -/
def eraseMergesData (rd : RepoData) : RepoData := { rd with merges := none }

theorem resolveRepo_error_msg (w : World) (force sk : Bool) (d : String) (rd : RepoData)
    (e : ConfigError) (h : (resolveRepo w force sk d rd).1 = .error e) :
    ∃ r, e = normPath w d ++ r := by
  unfold resolveRepo at h
  cases hb : (buildRemotes w (normPath w d) rd).1 with
  | error ec => simp only [hb] at h; cases h; exact buildRemotes_error_msg w _ rd _ hb
  | ok remotes =>
    simp only [hb] at h
    cases hm : rd.merges with
    | none => simp only [hm] at h; cases h; exact ⟨_, rfl⟩
    | some merge_data =>
      simp only [hm] at h
      cases hp : (processMerges w sk (normPath w d) (remotes.map Remote.name) merge_data).1 with
      | error ec =>
        simp only [hp] at h
        cases h
        exact processMerges_error_msg w sk _ _ merge_data _ hp
      | ok merges =>
        simp only [hp] at h
        by_cases he : merges.isEmpty
        · simp only [he, if_true] at h; cases h; exact ⟨_, rfl⟩
        · simp only [he, if_false] at h
          cases ht : parseTarget (normPath w d) (remotes.map Remote.name) rd.target with
          | error ec => simp only [ht] at h; cases h; exact parseTarget_error_msg _ _ _ _ ht
          | ok tgt => simp only [ht] at h; simp at h

theorem resolveRepo_frame (w : World) (force sk : Bool) (d : String) (rd : RepoData) :
    eraseMergesData (resolveRepo w force sk d rd).2.1 = eraseMergesData rd := by
  unfold resolveRepo
  cases hb : (buildRemotes w (normPath w d) rd).1 with
  | error ec => simp only [hb]
  | ok remotes =>
    simp only [hb]
    cases hm : rd.merges with
    | none => simp only [hm]
    | some merge_data =>
      simp only [hm]
      cases hp : (processMerges w sk (normPath w d) (remotes.map Remote.name) merge_data).1 with
      | error ec => simp only [hp]; rfl
      | ok merges =>
        simp only [hp]
        by_cases he : merges.isEmpty
        · simp only [he, if_true]; rfl
        · simp only [he, if_false]
          cases ht : parseTarget (normPath w d) (remotes.map Remote.name) rd.target with
          | error ec => simp only [ht]; rfl
          | ok tgt => simp only [ht]; rfl

theorem resolveRepo_ok_master (w : World) (force sk : Bool) (d : String) (rd : RepoData)
    (spec : RepoSpec) (h : (resolveRepo w force sk d rd).1 = .ok spec) :
    (∀ mg ∈ spec.merges, mg.remote ∈ spec.remotes.map Remote.name) ∧
    (∀ t, spec.target.remote = some t → t ∈ spec.remotes.map Remote.name) ∧
    spec.fetch_all = normFetchAll rd.fetch_all ∧
    (resolveRepo w force sk d rd).2.1 =
      { rd with merges := rd.merges.map (List.map coercedEntry) } := by
  unfold resolveRepo at h ⊢
  cases hb : (buildRemotes w (normPath w d) rd).1 with
  | error ec => simp only [hb] at h; simp at h
  | ok remotes =>
    simp only [hb] at h ⊢
    cases hm : rd.merges with
    | none => simp only [hm] at h; simp at h
    | some merge_data =>
      simp only [hm] at h ⊢
      cases hp : (processMerges w sk (normPath w d) (remotes.map Remote.name) merge_data).1 with
      | error ec => simp only [hp] at h; simp at h
      | ok merges =>
        simp only [hp] at h ⊢
        obtain ⟨hmem, hpost⟩ := processMerges_ok w sk (normPath w d)
          (remotes.map Remote.name) merge_data merges hp
        by_cases he : merges.isEmpty
        · simp only [he, if_true] at h; simp at h
        · simp only [he, if_false] at h ⊢
          cases ht : parseTarget (normPath w d) (remotes.map Remote.name) rd.target with
          | error ec => simp only [ht] at h; simp at h
          | ok tgt =>
            simp only [ht] at h ⊢
            cases h
            refine ⟨?_, ?_, rfl, ?_⟩
            · intro mg hmg
              exact hmem mg hmg
            · intro t htr
              exact parseTarget_ok_remote _ _ _ _ ht t htr
            · simp [hpost]


theorem get_repos_ok_each (w : World) (force sk : Bool) (cfg : Config) :
    ∀ specs, (get_repos w cfg force sk).1 = .ok specs →
      ∀ spec ∈ specs, ∃ p ∈ cfg, (resolveRepo w force sk p.1 p.2).1 = .ok spec := by
  induction cfg with
  | nil =>
    intro specs h spec hs
    simp only [get_repos] at h
    cases h
    simp at hs
  | cons p rest ih =>
    obtain ⟨pd, prd⟩ := p
    intro specs h spec hs
    simp only [get_repos] at h
    cases hr : (resolveRepo w force sk pd prd).1 with
    | error e => simp only [hr] at h; simp at h
    | ok s =>
      simp only [hr] at h
      cases ht : (get_repos w rest force sk).1 with
      | error e => simp only [ht, Except.map] at h; simp at h
      | ok tspecs =>
        simp only [ht, Except.map] at h
        cases h
        rcases List.mem_cons.mp hs with hs | hs
        · subst hs
          exact ⟨(pd, prd), List.mem_cons_self _ _, hr⟩
        · obtain ⟨q, hq, hres⟩ := ih tspecs ht spec hs
          exact ⟨q, List.mem_cons_of_mem _ hq, hres⟩

theorem get_repos_error_from (w : World) (force sk : Bool) (cfg : Config) :
    ∀ e, (get_repos w cfg force sk).1 = .error e →
      ∃ p ∈ cfg, ∃ r, e = normPath w p.1 ++ r := by
  induction cfg with
  | nil => intro e h; simp [get_repos] at h
  | cons p rest ih =>
    obtain ⟨pd, prd⟩ := p
    intro e h
    simp only [get_repos] at h
    cases hr : (resolveRepo w force sk pd prd).1 with
    | error ec =>
      simp only [hr] at h
      cases h
      obtain ⟨r, hr'⟩ := resolveRepo_error_msg w force sk pd prd _ hr
      exact ⟨(pd, prd), List.mem_cons_self _ _, r, hr'⟩
    | ok s =>
      simp only [hr] at h
      cases ht : (get_repos w rest force sk).1 with
      | error ec =>
        simp only [ht, Except.map] at h
        cases h
        obtain ⟨q, hq, r, hr'⟩ := ih _ ht
        exact ⟨q, List.mem_cons_of_mem _ hq, r, hr'⟩
      | ok tspecs => simp only [ht, Except.map] at h; simp at h

theorem get_repos_frame (w : World) (force sk : Bool) (cfg : Config) :
    ((get_repos w cfg force sk).2.1).map (fun p => (p.1, eraseMergesData p.2)) =
      cfg.map fun p => (p.1, eraseMergesData p.2) := by
  induction cfg with
  | nil => rfl
  | cons p rest ih =>
    obtain ⟨pd, prd⟩ := p
    simp only [get_repos]
    cases hr : (resolveRepo w force sk pd prd).1 with
    | error e =>
      simp only [hr, List.map_cons]
      rw [resolveRepo_frame]
    | ok s =>
      simp only [hr, List.map_cons]
      rw [resolveRepo_frame, ih]

theorem get_repos_ok_post (w : World) (force sk : Bool) (cfg : Config) :
    ∀ specs, (get_repos w cfg force sk).1 = .ok specs →
      (get_repos w cfg force sk).2.1 =
        cfg.map fun p =>
          (p.1, { p.2 with merges := p.2.merges.map (List.map coercedEntry) }) := by
  induction cfg with
  | nil => intro specs h; rfl
  | cons p rest ih =>
    obtain ⟨pd, prd⟩ := p
    intro specs h
    simp only [get_repos] at h ⊢
    cases hr : (resolveRepo w force sk pd prd).1 with
    | error e => simp only [hr] at h; simp at h
    | ok s =>
      simp only [hr] at h ⊢
      cases ht : (get_repos w rest force sk).1 with
      | error e => simp only [ht, Except.map] at h; simp at h
      | ok tspecs =>
        simp only [ht, Except.map] at h
        obtain ⟨-, -, -, hpost⟩ := resolveRepo_ok_master w force sk pd prd s hr
        simp only [List.map_cons]
        rw [hpost, ih tspecs ht]


/-- Claim C2: a configuration error from resolving any directory entry
aborts the whole resolution: the error surfaced is the one of the first
invalid entry in input order, no spec list is returned, and the entries
after the failing one are left untouched and produce no collaborator
calls. -/
theorem c2_fail_fast (w : World) (force sk : Bool) (pre post : Config)
    (d : String) (rd : RepoData) (e : ConfigError)
    (hpre : ∀ p ∈ pre, ∃ s, (resolveRepo w force sk p.1 p.2).1 = .ok s)
    (hfail : (resolveRepo w force sk d rd).1 = .error e) :
    (get_repos w (pre ++ (d, rd) :: post) force sk).1 = .error e ∧
    (get_repos w (pre ++ (d, rd) :: post) force sk).2.2 =
      (get_repos w (pre ++ [(d, rd)]) force sk).2.2 ∧
    (get_repos w (pre ++ (d, rd) :: post) force sk).2.1 =
      (get_repos w (pre ++ [(d, rd)]) force sk).2.1 ++ post := by
  revert hpre
  induction pre with
  | nil =>
    intro _
    simp [get_repos, hfail]
  | cons q pre ih =>
    obtain ⟨qd, qrd⟩ := q
    intro hpre
    obtain ⟨s, hs⟩ := hpre (qd, qrd) (List.mem_cons_self _ _)
    obtain ⟨h1, h2, h3⟩ := ih fun p hp => hpre p (List.mem_cons_of_mem _ hp)
    simp only [List.cons_append, get_repos, hs, List.append_eq]
    refine ⟨?_, ?_, ?_⟩
    · simp only [h1]; rfl
    · rw [h2]
    · rw [h3]

/-- Claim C4: during the ref pre-flight (merge check not skipped, working
copy present), a merge entry whose query cleanly returns not-found on a
non-hex ref is dropped from the merges list, while an entry whose query
raises is kept; the outcomes differ in exactly this way. -/
theorem c4_preflight_drop_vs_keep (w : World) (d : String) (names : List String)
    (m : MergeEntry) (mg : Merge) (rest : List MergeEntry)
    (h1 : (coerceMergeEntry d m).1 = .ok mg) (hr : mg.remote ∈ names)
    (_hwc : w.pathExists d = true) :
    (∀ sha, w.query d mg.remote mg.ref = .notFound sha → ishex mg.ref = false →
      (processMerges w false d names (m :: rest)).1 =
        (processMerges w false d names rest).1) ∧
    (w.query d mg.remote mg.ref = .raised →
      (processMerges w false d names (m :: rest)).1 =
        Except.map (fun l => mg :: l) (processMerges w false d names rest).1) := by
  constructor
  · intro sha hq hhex
    simp only [processMerges, stepMerge, h1, hr, if_true, Bool.not_false, hq, hhex,
      Bool.false_eq_true, if_false]
    cases hp : (processMerges w false d names rest).1 <;> simp [hp, Except.map]
  · intro hq
    simp only [processMerges, stepMerge, h1, hr, if_true, Bool.not_false, hq]

/-- Amended claim C6: when the merge check is not skipped, a ref query is
issued for every structurally valid merge entry with a defined remote,
regardless of whether the working copy exists on disk (the existence check
at config.py line 77 only gates applying the remotes to the working
copy). -/
theorem c6_query_issued_regardless (w : World) (d : String) (names : List String)
    (m : MergeEntry) (mg : Merge) (rest : List MergeEntry)
    (h1 : (coerceMergeEntry d m).1 = .ok mg) (hr : mg.remote ∈ names) :
    Event.refQuery d mg.remote mg.ref ∈ (processMerges w false d names (m :: rest)).2.2 := by
  cases hq : w.query d mg.remote mg.ref with
  | found rt sha => simp [processMerges, stepMerge, h1, hr, hq]
  | notFound sha =>
    by_cases hx : ishex mg.ref = true <;>
      simp [processMerges, stepMerge, h1, hr, hq, hx]
  | raised => simp [processMerges, stepMerge, h1, hr, hq]


/-- A `repo_data` with every key absent. -/
def rdEmpty : RepoData := {}

/-- Claim C1: whenever `get_repos` returns normally, every returned
`RepoSpec` satisfies the foreign-key invariant: each merge's remote and
the target's remote (when present) are names of the spec's remotes. -/
theorem c1_foreign_key_invariant (w : World) (cfg : Config) (force sk : Bool)
    (specs : List RepoSpec) (h : (get_repos w cfg force sk).1 = .ok specs) :
    ∀ spec ∈ specs,
      (∀ mg ∈ spec.merges, mg.remote ∈ spec.remotes.map Remote.name) ∧
      (∀ t, spec.target.remote = some t → t ∈ spec.remotes.map Remote.name) := by
  intro spec hs
  obtain ⟨p, hp, hres⟩ := get_repos_ok_each w force sk cfg specs h spec hs
  obtain ⟨h1, h2, -, -⟩ := resolveRepo_ok_master w force sk p.1 p.2 spec hres
  exact ⟨h1, h2⟩

/-- Witness for C1 at the minimal configuration. -/
theorem c1_foreign_key_invariant_witness :
    (∀ mg ∈ specMin.merges, mg.remote ∈ specMin.remotes.map Remote.name) ∧
    (∀ t, specMin.target.remote = some t → t ∈ specMin.remotes.map Remote.name) :=
  c1_foreign_key_invariant wTriv cfgMin false true [specMin] rfl specMin (by simp)

/-- Witness for C2: a valid directory, then one with no remotes and no
working copy, then a further directory that is never reached. -/
theorem c2_fail_fast_witness :
    (get_repos wTriv ([("/tmp/D", rdMin)] ++ ("/tmp/E", rdEmpty) :: [("/tmp/F", rdEmpty)])
        false true).1 = .error "/tmp/E: remotes is not defined." ∧
    (get_repos wTriv ([("/tmp/D", rdMin)] ++ ("/tmp/E", rdEmpty) :: [("/tmp/F", rdEmpty)])
        false true).2.2 =
      (get_repos wTriv ([("/tmp/D", rdMin)] ++ [("/tmp/E", rdEmpty)]) false true).2.2 ∧
    (get_repos wTriv ([("/tmp/D", rdMin)] ++ ("/tmp/E", rdEmpty) :: [("/tmp/F", rdEmpty)])
        false true).2.1 =
      (get_repos wTriv ([("/tmp/D", rdMin)] ++ [("/tmp/E", rdEmpty)]) false true).2.1 ++
        [("/tmp/F", rdEmpty)] := by
  refine c2_fail_fast wTriv false true [("/tmp/D", rdMin)] [("/tmp/F", rdEmpty)] "/tmp/E" rdEmpty
    "/tmp/E: remotes is not defined." ?_ rfl
  intro p hp
  simp only [List.mem_singleton] at hp
  subst hp
  exact ⟨specMin, rfl⟩

/-- Claim C3: the minimal configuration (one directory, one remote, one
text merge, no target) resolves, for any collaborator world, to exactly
the spec's round-trip `RepoSpec`. -/
theorem c3_minimal_roundtrip (w : World) :
    (get_repos w cfgMin false true).1 = .ok [specMin] := rfl

/-- Witness for C4: a non-hex ref under a clean not-found world. -/
theorem c4_preflight_drop_vs_keep_witness :
    (∀ sha, wNotFound.query "/tmp/D" "origin" "zref" = .notFound sha →
        ishex "zref" = false →
      (processMerges wNotFound false "/tmp/D" ["origin"] [.text "origin zref"]).1 =
        (processMerges wNotFound false "/tmp/D" ["origin"] []).1) ∧
    (wNotFound.query "/tmp/D" "origin" "zref" = .raised →
      (processMerges wNotFound false "/tmp/D" ["origin"] [.text "origin zref"]).1 =
        Except.map (fun l => (⟨"origin", "zref"⟩ : Merge) :: l)
          (processMerges wNotFound false "/tmp/D" ["origin"] []).1) :=
  c4_preflight_drop_vs_keep wNotFound "/tmp/D" ["origin"] (.text "origin zref")
    ⟨"origin", "zref"⟩ [] rfl (by simp) rfl

/-- Counterexample to C5 as stated: a merge-entry mapping with a numeric
ref value is coerced to text in place, so the input configuration is not
unchanged after `get_repos` runs. -/
theorem c5_mutation_counterexample :
    (get_repos wTriv cfgIntRef false true).2.1 ≠ cfgIntRef := by decide

/-- Amended claim C5: `get_repos` leaves the input unchanged except for
the merge-entry mappings: every field other than `merges` is preserved on
every run, and on a normal return each merge entry's `remote` and `ref`
values are replaced in place by their string coercions. -/
theorem c5_frame_and_coercion (w : World) (force sk : Bool) (cfg : Config) :
    ((get_repos w cfg force sk).2.1).map (fun p => (p.1, eraseMergesData p.2)) =
      cfg.map (fun p => (p.1, eraseMergesData p.2)) ∧
    ∀ specs, (get_repos w cfg force sk).1 = .ok specs →
      (get_repos w cfg force sk).2.1 =
        cfg.map fun p =>
          (p.1, { p.2 with merges := p.2.merges.map (List.map coercedEntry) }) :=
  ⟨get_repos_frame w force sk cfg, get_repos_ok_post w force sk cfg⟩

/-- Witness for the amended C5 at the numeric-ref configuration. -/
theorem c5_frame_and_coercion_witness :
    (get_repos wTriv cfgIntRef false true).2.1 =
      cfgIntRef.map (fun p =>
        (p.1, { p.2 with merges := p.2.merges.map (List.map coercedEntry) })) :=
  (c5_frame_and_coercion wTriv false true cfgIntRef).2 _ rfl

/-- Counterexample to C6 as stated: with no working copy on disk and the
merge check enabled, a ref query is still issued. -/
theorem c6_no_working_copy_counterexample :
    wTriv.pathExists "/tmp/D" = false ∧
    (get_repos wTriv cfgHexRef false false).2.2 =
      [.refQuery "/tmp/D" "origin" "b"] :=
  ⟨rfl, rfl⟩

/-- Witness for the amended C6, in a world with no working copies. -/
theorem c6_query_issued_regardless_witness :
    Event.refQuery "/tmp/D" "origin" "b" ∈
      (processMerges wTriv false "/tmp/D" ["origin"] [.text "origin b"]).2.2 :=
  c6_query_issued_regardless wTriv "/tmp/D" ["origin"] (.text "origin b")
    ⟨"origin", "b"⟩ [] rfl (by simp)

/-- Counterexample to C7 as stated: `fetch_all: true` survives as the
boolean `true`, which is neither the boolean `false` nor a set. -/
theorem c7_fetch_all_counterexample :
    (get_repos wTriv cfgFetchTrue false true).1.map (List.map RepoSpec.fetch_all) =
      .ok [.b true] ∧
    FetchAll.isSet (.b true) = false ∧ FetchAll.b true ≠ FetchAll.b false :=
  ⟨rfl, rfl, by decide⟩

/-- Amended claim C7: every returned `RepoSpec` carries
`normFetchAll` of its raw `fetch_all` value: a boolean is kept as given
(`false` when the key is absent), a single string becomes a one-element
set, and a list becomes a set. -/
theorem c7_fetch_all_amended (w : World) (cfg : Config) (force sk : Bool)
    (specs : List RepoSpec) (v : String) (l : List String) (bv : Bool)
    (h : (get_repos w cfg force sk).1 = .ok specs) :
    (∀ spec ∈ specs, ∃ p ∈ cfg, spec.fetch_all = normFetchAll p.2.fetch_all) ∧
    normFetchAll .absent = .b false ∧
    normFetchAll (.s v) = .set {v} ∧
    normFetchAll (.l l) = .set l.toFinset ∧
    normFetchAll (.b bv) = .b bv := by
  refine ⟨?_, rfl, rfl, rfl, rfl⟩
  intro spec hs
  obtain ⟨p, hp, hres⟩ := get_repos_ok_each w force sk cfg specs h spec hs
  obtain ⟨-, -, hf, -⟩ := resolveRepo_ok_master w force sk p.1 p.2 spec hres
  exact ⟨p, hp, hf⟩

/-- Witness for the amended C7. -/
theorem c7_fetch_all_amended_witness :
    (∀ spec ∈ [specMin], ∃ p ∈ cfgMin, spec.fetch_all = normFetchAll p.2.fetch_all) ∧
    normFetchAll .absent = .b false ∧
    normFetchAll (.s "x") = .set {"x"} ∧
    normFetchAll (.l ["a", "b"]) = .set (["a", "b"] : List String).toFinset ∧
    normFetchAll (.b true) = .b true :=
  c7_fetch_all_amended wTriv cfgMin false true [specMin] "x" ["a", "b"] true rfl

/-- Claim C8: every error `get_repos` produces is the single
configuration-error kind, and its message begins with the offending
(normalized) directory. -/
theorem c8_single_error_kind (w : World) (cfg : Config) (force sk : Bool)
    (e : ConfigError) (h : (get_repos w cfg force sk).1 = .error e) :
    ∃ p ∈ cfg, ∃ r, e = normPath w p.1 ++ r :=
  get_repos_error_from w force sk cfg e h

/-- Witness for C8 at a directory with no remotes and no working copy. -/
theorem c8_single_error_kind_witness :
    ∃ p ∈ ([("/tmp/E", rdEmpty)] : Config), ∃ r,
      "/tmp/E: remotes is not defined." = normPath wTriv p.1 ++ r :=
  c8_single_error_kind wTriv [("/tmp/E", rdEmpty)] false true
    "/tmp/E: remotes is not defined." rfl

/-- Claim C9: with the merge check skipped, the text shape
`"origin 14.0"` and the mapping shape with the same fields produce
identical merges lists. -/
theorem c9_merge_shape_equivalence (w : World) :
    (get_repos w cfgMin false true).1.map (List.map RepoSpec.merges) =
      .ok [[⟨"origin", "14.0"⟩]] ∧
    (get_repos w cfgMapShape false true).1.map (List.map RepoSpec.merges) =
      .ok [[⟨"origin", "14.0"⟩]] :=
  ⟨rfl, rfl⟩

/-- Claim C10: the empty configuration resolves to the empty list, with
no error, for every combination of the flags. -/
theorem c10_empty_config (w : World) (force sk : Bool) :
    get_repos w [] force sk = (.ok [], [], []) := rfl

end GitAggregator
